import Mathlib

/-!
# ArchSDN controller: verification of the spec claims

Shallow embedding of the ArchSDN distributed SDN controller core
(`archsdn/engine/globals.py`, `archsdn/p2p_requests.py`) and proofs about it.

Python global mutable state is passed explicitly: every function that mutates
a global dictionary takes the table (or an `EngineState`) as an argument and
returns the updated one.  Python `raise` is embedded as `Except`.  Python
floats (Q-values) are embedded as rationals `ℚ`: none of the verified claims
depends on float rounding, only on the algebraic update rule and on
comparisons with 0.  Python dictionaries are embedded as association lists
whose update overwrites the first matching key, preserving insertion order.
-/

namespace ArchSDN

/-! ## Association-list dictionaries (Python `dict`) -/

/-- Python `d[k] = v`: overwrite the binding in place, or append a new one. -/
def dictSet {α β : Type} [DecidableEq α] : List (α × β) → α → β → List (α × β)
  | [], k, v => [(k, v)]
  | (k', v') :: rest, k, v =>
      if k' = k then (k, v) :: rest else (k', v') :: dictSet rest k v

/-- Python `d[k]` / `k in d`: first binding for `k`, if any. -/
def dictGet {α β : Type} [DecidableEq α] : List (α × β) → α → Option β
  | [], _ => none
  | (k', v) :: rest, k => if k' = k then some v else dictGet rest k

theorem dictGet_dictSet {α β : Type} [DecidableEq α]
    (l : List (α × β)) (k : α) (v : β) : dictGet (dictSet l k v) k = some v := by
  induction l with
  | nil => simp [dictSet, dictGet]
  | cons p rest ih =>
    by_cases h : p.1 = k
    · simp [dictSet, dictGet, h]
    · simp [dictSet, dictGet, h, ih]

/-! ## ID allocators (`globals.py`, lines 256–337)

Two instances exist in the source: cookie ids (lower bound 0, ceiling
`0xFFFFFFFFFFFFFFFF`) and MPLS label ids (lower bound 16, ceiling
`0x100000`).  Each keeps a high-water `counter` and a recycle `pool`
(a Python list, so ordered); both are embedded generically, parametrised
by the lower bound and the ceiling. -/

/-- Python `max` over a list of naturals (the code only applies it to
non-empty pools; the value on `[]` is irrelevant). -/
def listMax : List Nat → Nat
  | [] => 0
  | x :: xs => max x (listMax xs)

theorem listMax_mem {l : List Nat} (h : l ≠ []) : listMax l ∈ l := by
  induction l with
  | nil => exact absurd rfl h
  | cons x xs ih =>
    cases xs with
    | nil => simp [listMax]
    | cons y ys =>
      have hmem := ih (by simp)
      rw [listMax]
      rcases Nat.le_total x (listMax (y :: ys)) with hle | hle
      · rw [max_eq_right hle]
        exact List.mem_cons_of_mem _ hmem
      · rw [max_eq_left hle]
        exact List.mem_cons_self _ _

theorem le_listMax {l : List Nat} {a : Nat} (h : a ∈ l) : a ≤ listMax l := by
  induction l with
  | nil => cases h
  | cons x xs ih =>
    rcases List.mem_cons.mp h with rfl | h'
    · exact le_max_left _ _
    · exact le_trans (ih h') (le_max_right _ _)

theorem listMax_lt {l : List Nat} {c : Nat} (hne : l ≠ [])
    (h : ∀ x ∈ l, x < c) : listMax l < c :=
  h _ (listMax_mem hne)

/-- The compaction loop shared by `free_cookie_id` and `free_mpls_label_id`:
while the pool is non-empty and its maximum equals the counter, remove the
maximum and decrement the counter.  Each continuing iteration removes one
pool element, so `pool.length` iterations always suffice; the loop is
embedded with that fuel so that it stays structurally recursive. -/
def compactN : Nat → Nat → List Nat → Nat × List Nat
  | 0, counter, pool => (counter, pool)
  | fuel + 1, counter, pool =>
    if pool = [] then (counter, pool)
    else if counter = listMax pool then
      compactN fuel (counter - 1) (pool.erase (listMax pool))
    else (counter, pool)

def compactLoop (counter : Nat) (pool : List Nat) : Nat × List Nat :=
  compactN pool.length counter pool

/-- Allocator state: the high-water counter and the recycle pool
(`__cookie_id_counter` / `__recycled_cookie_ids`,
`__mpls_label_id_counter` / `__recycled_mpls_labels`). -/
structure AllocState where
  counter : Nat
  pool : List Nat
deriving DecidableEq, Repr

/-- Embedding of `alloc_cookie_id` (ceiling `0xFFFFFFFFFFFFFFFF`) and
`alloc_mpls_label_id` (ceiling `0x100000`), `globals.py` 261–273 and
308–317: fail at the ceiling, otherwise pop the most recently recycled id,
otherwise increment the counter and return it. -/
def alloc (ceiling : Nat) (s : AllocState) : Except String (Nat × AllocState) :=
  if s.counter = ceiling then .error "exhausted"
  else if h : s.pool = [] then .ok (s.counter + 1, ⟨s.counter + 1, []⟩)
  else .ok (s.pool.getLast h, ⟨s.counter, s.pool.dropLast⟩)

/-- Embedding of `free_cookie_id` (lower bound 0) and `free_mpls_label_id` (lower bound
16), `globals.py` 276–296 and 320–337: validate the id, append it to the
pool, then compact.  All validation precedes any mutation in the source, so
an error leaves the caller's state untouched. -/
def free (lb : Nat) (s : AllocState) (i : Nat) : Except String AllocState :=
  if i ≤ lb then .error "id cannot be lower than the bound"
  else if s.counter < i then .error "id was not allocated"
  else if i ∈ s.pool then .error "id already free"
  else
    let r := compactLoop s.counter (s.pool ++ [i])
    .ok ⟨r.1, r.2⟩

def cookieCeiling : Nat := 0xFFFFFFFFFFFFFFFF
def mplsCeiling : Nat := 0x100000

/-- Allocator states reachable from the initial state through successful
`alloc`/`free` calls (a failing call raises in Python before mutating, so it
does not change the state). -/
inductive Reachable (lb ceiling : Nat) : AllocState → Prop where
  | init : Reachable lb ceiling ⟨lb, []⟩
  | step_alloc {s s' : AllocState} {n : Nat} :
      Reachable lb ceiling s → alloc ceiling s = .ok (n, s') →
      Reachable lb ceiling s'
  | step_free {s s' : AllocState} {n : Nat} :
      Reachable lb ceiling s → free lb s n = .ok s' →
      Reachable lb ceiling s'

/-- Invariant of reachable allocator states: the counter stays above the
lower bound, the pool holds distinct ids in `(lb, counter]`, and after
compaction the pool's maximum stays strictly below the counter. -/
structure AllocInv (lb : Nat) (s : AllocState) : Prop where
  lb_le : lb ≤ s.counter
  nodup : s.pool.Nodup
  range : ∀ x ∈ s.pool, lb < x ∧ x ≤ s.counter
  compacted : s.pool = [] ∨ listMax s.pool < s.counter

theorem compactN_spec (lb : Nat) :
    ∀ (fuel counter : Nat) (pool : List Nat),
      pool.length ≤ fuel → lb ≤ counter → pool.Nodup →
      (∀ x ∈ pool, lb < x ∧ x ≤ counter) →
      lb ≤ (compactN fuel counter pool).1 ∧
      (compactN fuel counter pool).2.Nodup ∧
      (∀ x ∈ (compactN fuel counter pool).2,
        lb < x ∧ x ≤ (compactN fuel counter pool).1) ∧
      ((compactN fuel counter pool).2 = [] ∨
        listMax (compactN fuel counter pool).2 < (compactN fuel counter pool).1) := by
  intro fuel
  induction fuel with
  | zero =>
    intro counter pool hlen hlb hnd hr
    have : pool = [] := List.length_eq_zero.mp (Nat.le_zero.mp hlen)
    subst this
    exact ⟨hlb, List.nodup_nil, by simp [compactN], Or.inl rfl⟩
  | succ fuel ih =>
    intro counter pool hlen hlb hnd hr
    by_cases hp : pool = []
    · subst hp
      exact ⟨by simpa [compactN] using hlb, by simp [compactN],
        by simp [compactN], Or.inl (by simp [compactN])⟩
    · by_cases hc : counter = listMax pool
      · have hmem : listMax pool ∈ pool := listMax_mem hp
        have hlt : lb < listMax pool := (hr _ hmem).1
        have hlen' : (pool.erase (listMax pool)).length ≤ fuel := by
          have := List.length_erase_of_mem hmem
          omega
        have hnd' : (pool.erase (listMax pool)).Nodup := hnd.erase _
        have hr' : ∀ x ∈ pool.erase (listMax pool), lb < x ∧ x ≤ counter - 1 := by
          intro x hx
          have hxp : x ≠ listMax pool ∧ x ∈ pool := (hnd.mem_erase_iff).mp hx
          have := hr x hxp.2
          have hle : x ≤ listMax pool := le_listMax hxp.2
          constructor
          · exact this.1
          · omega
        have hlb' : lb ≤ counter - 1 := by omega
        have := ih (counter - 1) (pool.erase (listMax pool)) hlen' hlb' hnd' hr'
        simpa [compactN, hp, hc] using this
      · refine ⟨by simpa [compactN, hp, hc] using hlb,
          by simpa [compactN, hp, hc] using hnd,
          by simpa [compactN, hp, hc] using hr, ?_⟩
        right
        have hmem : listMax pool ∈ pool := listMax_mem hp
        have hle : listMax pool ≤ counter := (hr _ hmem).2
        have : listMax pool < counter := lt_of_le_of_ne hle (fun h => hc h.symm)
        simpa [compactN, hp, hc] using this

theorem reachable_inv {lb ceiling : Nat} {s : AllocState}
    (h : Reachable lb ceiling s) : AllocInv lb s := by
  induction h with
  | init => exact ⟨Nat.le_refl _, List.nodup_nil, by simp, Or.inl rfl⟩
  | step_alloc hr hok ih =>
    rename_i s s' n
    unfold alloc at hok
    by_cases hceil : s.counter = ceiling
    · simp [hceil] at hok
    · by_cases hp : s.pool = []
      · simp [hceil, hp] at hok
        refine ⟨?_, ?_, ?_, ?_⟩ <;> rw [← hok.2]
        · exact le_trans ih.lb_le (Nat.le_succ _)
        · exact List.nodup_nil
        · simp
        · exact Or.inl rfl
      · simp [hceil, hp] at hok
        have hsub : s.pool.dropLast.Sublist s.pool := List.dropLast_sublist _
        refine ⟨?_, ?_, ?_, ?_⟩ <;> rw [← hok.2]
        · exact ih.lb_le
        · exact hsub.nodup ih.nodup
        · intro x hx
          exact ih.range x (hsub.subset hx)
        · by_cases hdl : s.pool.dropLast = []
          · exact Or.inl hdl
          · right
            refine listMax_lt hdl ?_
            intro x hx
            have hx' : x ∈ s.pool := hsub.subset hx
            have hcomp := ih.compacted.resolve_left hp
            exact lt_of_le_of_lt (le_listMax hx') hcomp
  | step_free hr hok ih =>
    rename_i s s' n
    unfold free at hok
    by_cases h1 : n ≤ lb
    · simp [h1] at hok
    · by_cases h2 : s.counter < n
      · simp [h1, h2] at hok
      · by_cases h3 : n ∈ s.pool
        · simp [h1, h2, h3] at hok
        · simp [h1, h2, h3] at hok
          have hnd : (s.pool ++ [n]).Nodup := by
            refine List.Nodup.append ih.nodup (List.nodup_singleton n) ?_
            intro x hx hx'
            rw [List.mem_singleton] at hx'
            exact h3 (hx' ▸ hx)
          have hrange : ∀ x ∈ s.pool ++ [n], lb < x ∧ x ≤ s.counter := by
            intro x hx
            rcases List.mem_append.mp hx with hx' | hx'
            · exact ih.range x hx'
            · rw [List.mem_singleton] at hx'
              subst hx'
              exact ⟨Nat.lt_of_not_le h1, Nat.le_of_not_lt h2⟩
          have hspec := compactN_spec lb (s.pool ++ [n]).length s.counter
            (s.pool ++ [n]) (Nat.le_refl _) ih.lb_le hnd hrange
          rw [← hok]
          exact ⟨hspec.1, hspec.2.1, hspec.2.2.1, hspec.2.2.2⟩

/-- Tests whether the embedded Python call raised. -/
def excIsError {ε α : Type} : Except ε α → Bool
  | .error _ => true
  | .ok _ => false

theorem reachable_fresh (lb ceiling : Nat) :
    ∀ n : Nat, lb + n ≤ ceiling → Reachable lb ceiling ⟨lb + n, []⟩ := by
  intro n
  induction n with
  | zero => intro _; exact Reachable.init
  | succ n ih =>
    intro h
    refine Reachable.step_alloc (n := lb + n + 1) (ih (by omega)) ?_
    have hne : ¬ (lb + n = ceiling) := by omega
    simp [alloc, hne]
    omega

/-- Helper for C6: in any reachable allocator state in which no id is
outstanding (everything in `(lb, counter]` sits in the recycle pool), the
counter has been compacted back to the lower bound and the pool is empty. -/
theorem alloc_reset_of_all_freed {lb ceiling : Nat} {s : AllocState}
    (h : Reachable lb ceiling s)
    (hall : ∀ x, lb < x → x ≤ s.counter → x ∈ s.pool) :
    s.counter = lb ∧ s.pool = [] := by
  have inv := reachable_inv h
  have hc : s.counter = lb := by
    by_contra hc
    have hlt : lb < s.counter := lt_of_le_of_ne inv.lb_le (Ne.symm hc)
    have hmem : s.counter ∈ s.pool := hall _ hlt (le_refl _)
    have hne : s.pool ≠ [] := by
      intro h0
      rw [h0] at hmem
      cases hmem
    have h1 : s.counter ≤ listMax s.pool := le_listMax hmem
    have h2 := inv.compacted.resolve_left hne
    omega
  refine ⟨hc, ?_⟩
  cases hp : s.pool with
  | nil => rfl
  | cons a as =>
    have ha : a ∈ s.pool := by
      rw [hp]
      exact List.mem_cons_self _ _
    have := inv.range a ha
    omega

/-- C4 (refuted, code bug): the claim says `alloc_mpls_label_id` only returns
labels in `[17, 2²⁰ − 1]`.  The allocator guard raises only once the counter
*equals* `0x100000`, so from the reachable state with counter `0xFFFFF`
(reached after 1 048 559 fresh allocations) the next allocation hands out the
label `0x100000 = 2²⁰`, which does not fit the 20-bit MPLS label field. -/
theorem mpls_alloc_exceeds_label_range :
    Reachable 16 mplsCeiling ⟨0xFFFFF, []⟩ ∧
    alloc mplsCeiling ⟨0xFFFFF, []⟩ = .ok (0x100000, ⟨0x100000, []⟩) ∧
    ¬ (0x100000 ≤ 2 ^ 20 - 1) := by
  refine ⟨?_, by rfl, by norm_num⟩
  have h := reachable_fresh 16 mplsCeiling 1048559 (by norm_num [mplsCeiling])
  norm_num at h
  convert h using 2

/-- C6: for any reachable cookie-allocator state (lower bound 0) and any
reachable MPLS-allocator state (lower bound 16) in which every allocated id
has been freed again — i.e. nothing in `(lb, counter]` is outstanding, every
such id is back in the recycle pool — the compaction performed by `free` has
returned the counter to its initial value (0 resp. 16) and emptied the pool. -/
theorem allocators_reset_after_all_freed {s t : AllocState}
    (hs : Reachable 0 cookieCeiling s) (ht : Reachable 16 mplsCeiling t)
    (hsall : ∀ x, 0 < x → x ≤ s.counter → x ∈ s.pool)
    (htall : ∀ x, 16 < x → x ≤ t.counter → x ∈ t.pool) :
    (s.counter = 0 ∧ s.pool = []) ∧ (t.counter = 16 ∧ t.pool = []) :=
  ⟨alloc_reset_of_all_freed hs hsall, alloc_reset_of_all_freed ht htall⟩

theorem allocators_reset_after_all_freed_witness :
    (AllocState.counter ⟨0, []⟩ = 0 ∧ AllocState.pool ⟨0, []⟩ = []) ∧
    (AllocState.counter ⟨16, []⟩ = 16 ∧ AllocState.pool ⟨16, []⟩ = []) := by
  have r1 : Reachable 0 cookieCeiling ⟨1, []⟩ :=
    Reachable.step_alloc (n := 1) Reachable.init (by rfl)
  have r2 : Reachable 0 cookieCeiling ⟨2, []⟩ :=
    Reachable.step_alloc (n := 2) r1 (by rfl)
  have r3 : Reachable 0 cookieCeiling ⟨2, [1]⟩ :=
    Reachable.step_free (n := 1) r2 (by rfl)
  have r4 : Reachable 0 cookieCeiling ⟨0, []⟩ :=
    Reachable.step_free (n := 2) r3 (by rfl)
  exact allocators_reset_after_all_freed r4 Reachable.init
    (fun x h1 h2 => absurd (Nat.lt_of_lt_of_le h1 h2) (Nat.lt_irrefl 0))
    (fun x h1 h2 => absurd (Nat.lt_of_lt_of_le h1 h2) (Nat.lt_irrefl 16))

/-- C7: in every reachable allocator state, freeing an id that already sits
in the recycle pool (double free), or an id outside `(lb, counter]` (never
allocated), raises (`ValueError` in the source, the spec's
`InvalidArgument`).  In the source all validation precedes any mutation, so
a raising call leaves counter and pool unchanged — here embodied by `free`
returning `.error` without producing a successor state. -/
theorem free_rejects_double_and_unallocated {lb ceiling : Nat}
    {s : AllocState} {i : Nat} (h : Reachable lb ceiling s) :
    (i ∈ s.pool → excIsError (free lb s i) = true) ∧
    (¬ (lb < i ∧ i ≤ s.counter) → excIsError (free lb s i) = true) := by
  have inv := reachable_inv h
  constructor
  · intro hmem
    have hr := inv.range i hmem
    unfold free
    rw [if_neg (by omega), if_neg (by omega), if_pos hmem]
    rfl
  · intro hni
    unfold free
    by_cases h1 : i ≤ lb
    · rw [if_pos h1]
      rfl
    · have h2 : s.counter < i := by omega
      rw [if_neg h1, if_pos h2]
      rfl

theorem free_rejects_double_and_unallocated_witness :
    excIsError (free 0 ⟨2, [1]⟩ 1) = true ∧
    excIsError (free 0 ⟨2, [1]⟩ 5) = true := by
  have r1 : Reachable 0 cookieCeiling ⟨1, []⟩ :=
    Reachable.step_alloc (n := 1) Reachable.init (by rfl)
  have r2 : Reachable 0 cookieCeiling ⟨2, []⟩ :=
    Reachable.step_alloc (n := 2) r1 (by rfl)
  have r3 : Reachable 0 cookieCeiling ⟨2, [1]⟩ :=
    Reachable.step_free (n := 1) r2 (by rfl)
  exact ⟨(free_rejects_double_and_unallocated (i := 1) r3).1 (by decide),
    (free_rejects_double_and_unallocated (i := 5) r3).2 (by decide)⟩

/-! ## Q-value and KSPL tables (`globals.py`, lines 64–106)

`QValues` and `kspl` are nested dictionaries `table[key][host_address]`.
The outer key is either an adjacent controller id or a local edge
`(switch, port)`; the inner key is the target address — the engine uses
both the `IPv4Address` object and its string form, which hash differently
in Python and therefore name *different* cells, so the embedding keeps
them apart. -/

/-- Outer key of `QValues` / `kspl`. -/
inductive QKey where
  | sector (c : Nat)
  | edge (sw port : Nat)
deriving DecidableEq, Repr

/-- Inner key of `QValues` / `kspl`: the target address, either as the
`IPv4Address` object or as its string form (distinct dictionary keys). -/
inductive AddrKey where
  | ip (a : Nat)
  | str (a : Nat)
deriving DecidableEq, Repr

abbrev QTable := List (QKey × List (AddrKey × ℚ))
abbrev KTable := List (QKey × List (AddrKey × Option Nat))

/-- Embedding of `get_q_value` (`globals.py` 88–94): inserts a 0 cell when absent, then
returns the stored value.  The possibly-grown table is returned alongside
because the Python function mutates the global dictionary. -/
def get_q_value (tbl : QTable) (k : QKey) (h : AddrKey) : ℚ × QTable :=
  match dictGet tbl k with
  | none => (0, dictSet tbl k [(h, 0)])
  | some inner =>
    match dictGet inner h with
    | none => (0, dictSet tbl k (dictSet inner h 0))
    | some v => (v, tbl)

/-- Embedding of `set_q_value` (`globals.py` 97–102): writes the value only when the
outer key is absent, or when the outer key is present but the inner key is
absent.  When both keys are present the function silently does nothing. -/
def set_q_value (tbl : QTable) (k : QKey) (h : AddrKey) (v : ℚ) : QTable :=
  match dictGet tbl k with
  | none => dictSet tbl k [(h, v)]
  | some inner =>
    match dictGet inner h with
    | none => dictSet tbl k (dictSet inner h v)
    | some _ => tbl

/-- Embedding of `get_known_shortest_path` (`globals.py` 73–78): inserts a `None` cell
when absent, then returns the stored value. -/
def get_known_shortest_path (tbl : KTable) (k : QKey) (h : AddrKey) :
    Option Nat × KTable :=
  match dictGet tbl k with
  | none => (none, dictSet tbl k [(h, none)])
  | some inner =>
    match dictGet inner h with
    | none => (none, dictSet tbl k (dictSet inner h none))
    | some v => (v, tbl)

/-- Embedding of `set_known_shortest_path` (`globals.py` 81–85): overwrites the cell
unconditionally (unlike `set_q_value`). -/
def set_known_shortest_path (tbl : KTable) (k : QKey) (h : AddrKey) (v : Nat) :
    KTable :=
  match dictGet tbl k with
  | none => dictSet tbl k [(h, some v)]
  | some inner => dictSet tbl k (dictSet inner h (some v))

def q_alpha : ℚ := 9 / 10
def q_beta : ℚ := 1 / 10

/-- Embedding of `calculate_new_qvalue` (`globals.py` 105–106). -/
def calculate_new_qvalue (old_value forward_value reward : ℚ) : ℚ :=
  old_value + q_alpha * (reward + q_beta * forward_value - old_value)

/-- Python truthiness of the value read from the KSPL table
(`None` and `0` are falsy). -/
def pyTruthy : Option Nat → Bool
  | none => false
  | some n => decide (n ≠ 0)

/-- The KSPL refresh performed on every successful peer activation
(`p2p_requests.py` 539–558, 715–734, 982–1001, 1136–1155): read the cell,
then write `path_length + 1` — in *both* branches of the comparison with the
old value — then read the cell back. -/
def kspl_success_refresh (tbl : KTable) (k : QKey) (h : AddrKey)
    (peerLen : Nat) : Option Nat × KTable :=
  let r := get_known_shortest_path tbl k h
  let tbl2 :=
    if pyTruthy r.1 ∧ r.1.getD 0 > peerLen + 1 then
      set_known_shortest_path r.2 k h (peerLen + 1)
    else
      set_known_shortest_path r.2 k h (peerLen + 1)
  get_known_shortest_path tbl2 k h

theorem get_known_after_set (tbl : KTable) (k : QKey) (h : AddrKey) (v : Nat) :
    get_known_shortest_path (set_known_shortest_path tbl k h v) k h =
      (some v, set_known_shortest_path tbl k h v) := by
  unfold set_known_shortest_path get_known_shortest_path
  cases hg : dictGet tbl k with
  | none => simp [hg, dictGet_dictSet, dictGet]
  | some inner => simp [hg, dictGet_dictSet]

/-- C1 (refuted, code bug): the claim says that after
`set_q_value(key, target, v)` an immediately following
`get_q_value(key, target)` returns `v`, also when a value for the cell is
already present.  In the source, `set_q_value` mirrors `get_q_value`'s
insert-if-absent structure and silently drops the write when the cell
exists: writing 5 and then 7 to the same cell leaves 5 stored.  (Compare
`set_known_shortest_path`, which overwrites in its `else` branch.) -/
theorem set_q_value_drops_write_when_present :
    (get_q_value
      (set_q_value (set_q_value [] (QKey.sector 0) (AddrKey.ip 0) 5)
        (QKey.sector 0) (AddrKey.ip 0) 7)
      (QKey.sector 0) (AddrKey.ip 0)).1 = 5 ∧ (5 : ℚ) ≠ 7 := by
  constructor
  · simp [set_q_value, get_q_value, dictGet, dictSet]
  · norm_num

/-- C8: on every successful peer activation, the engine writes
`KSPL[key][target] := peer path_length + 1` unconditionally — both branches
of the comparison with the stored value perform the same write, so the new
value replaces the old one whether or not it improves on it.  The refreshed
read used for the reward, and any later read of the cell, both return
`path_length + 1` for *every* prior table content. -/
theorem kspl_refresh_always_overwrites (tbl : KTable) (k : QKey) (h : AddrKey)
    (peerLen : Nat) :
    (kspl_success_refresh tbl k h peerLen).1 = some (peerLen + 1) ∧
    (get_known_shortest_path (kspl_success_refresh tbl k h peerLen).2 k h).1 =
      some (peerLen + 1) := by
  simp only [kspl_success_refresh]
  split
  · rw [get_known_after_set, get_known_after_set]
    exact ⟨rfl, rfl⟩
  · rw [get_known_after_set, get_known_after_set]
    exact ⟨rfl, rfl⟩

/-! ## P2P request dispatch (`p2p_requests.py`, `client_handler`, 195–262)

The claims concern only the dispatch of a well-formed framed request
`(method_name, args, kwargs)`; framing, decompression and unpickling are
not modelled.  The handler's observable behaviour on an unknown method name
depends on two interpreter flags, which are part of the model. -/

/-- Python interpreter flags the handler depends on: `optimized`
(`python -O`: `assert` statements are skipped) and `sys.flags.debug`
(`python -d`). The default run has both `false`. -/
structure InterpFlags where
  optimized : Bool
  debug : Bool
deriving DecidableEq, Repr

/-- A raised Python exception, as far as the except-ladder distinguishes. -/
inductive PyExc where
  | keyError (msg : String)
  | assertionError (msg : String)
  | other (msg : String)
deriving DecidableEq, Repr

/-- Python `str(exc)`. -/
def pyExcText : PyExc → String
  | .keyError m => m
  | .assertionError m => m
  | .other m => m

/-- An ASCII apostrophe, as produced by Python `repr` on a string. -/
def sq : String := ⟨[Char.ofNat 39]⟩

/-- Python `repr(func_name)` where `func_name : Optional[str]`. -/
def pyRepr : Option String → String
  | none => "None"
  | some s => sq ++ s ++ sq

/-- The fixed dispatch table `_requests` (`p2p_requests.py` 1362–1368). -/
def p2pMethods : List String :=
  ["req_local_time", "publish_event", "query_address_info",
   "activate_scenario", "terminate_scenario"]

/-- The dispatch core of `client_handler` (`p2p_requests.py` 227–257) for a
well-formed framed request.  With assertions enabled (the interpreter
default) an unknown method name trips `assert request[0] in _requests`
*before* `func_name` is assigned; the resulting `AssertionError` lands in
the generic `except Exception` clause.  Only with `-O` (assertions skipped)
does the lookup `_requests[func_name]` raise `KeyError`, which the dedicated
`except KeyError` clause turns into the `Unknown Request: '…'` reply.
`run` is the behaviour of the registered handlers (which may raise,
including `KeyError`). -/
def dispatchRequest (flags : InterpFlags) (methods : List String)
    (run : String → Except PyExc String) (name : String) : Nat × String :=
  let outcome : Except (Option String × PyExc) String :=
    if ¬ flags.optimized ∧ name ∉ methods then
      .error (none, .assertionError "function name is not registered ")
    else if name ∉ methods then
      .error (some name, .keyError name)
    else
      match run name with
      | .ok body => .ok body
      | .error e => .error (some name, e)
  match outcome with
  | .ok body => (0, body)
  | .error (fn, .keyError _) => (1, "Unknown Request: " ++ sq ++ pyRepr fn ++ sq)
  | .error (_, e) =>
      if flags.debug then (1, "Unknown Request: " ++ pyExcText e)
      else (1, "Internal Error. Cannot process request.")

/-- C2/C5-style counterexample for C5: under default interpreter flags
(assertions enabled, `sys.flags.debug = 0`) an unknown method name `"foo"`
is answered with status 1 but body `"Internal Error. Cannot process
request."` — not an `Unknown Request` string as the claim states. -/
theorem unknown_method_internal_error_reply :
    dispatchRequest ⟨false, false⟩ p2pMethods (fun _ => .ok "") "foo" =
      (1, "Internal Error. Cannot process request.") ∧
    ("Unknown Request").data.isPrefixOf
      (dispatchRequest ⟨false, false⟩ p2pMethods
        (fun _ => .ok "") "foo").2.data = false := by
  exact ⟨by rfl, by decide⟩

/-- C5 (amended): for a well-formed framed request whose method name is not
in the dispatch table, the reply status is always 1, but the body depends on
the interpreter flags: under `-O` it is `"Unknown Request: ''name''"` (from
the `except KeyError` clause; Python `repr` adds a second pair of quotes),
under `-d` it is `"Unknown Request: function name is not registered "`, and
under the default flags it is `"Internal Error. Cannot process request."`. -/
theorem unknown_method_reply (flags : InterpFlags)
    (run : String → Except PyExc String) (name : String)
    (h : name ∉ p2pMethods) :
    (dispatchRequest flags p2pMethods run name).1 = 1 ∧
    (dispatchRequest flags p2pMethods run name).2 =
      (if flags.optimized then
        "Unknown Request: " ++ sq ++ (sq ++ name ++ sq) ++ sq
      else if flags.debug then
        "Unknown Request: function name is not registered "
      else "Internal Error. Cannot process request.") := by
  cases flags with
  | mk o d =>
    cases o <;> cases d <;>
      simp [dispatchRequest, h, pyRepr, pyExcText]

theorem unknown_method_reply_witness :
    (dispatchRequest ⟨true, false⟩ p2pMethods
      (fun _ => .ok "") "nosuch").1 = 1 ∧
    (dispatchRequest ⟨true, false⟩ p2pMethods
      (fun _ => .ok "") "nosuch").2 =
      (if (true : Bool) then
        "Unknown Request: " ++ sq ++ (sq ++ "nosuch" ++ sq) ++ sq
      else if (false : Bool) then
        "Unknown Request: function name is not registered "
      else "Internal Error. Cannot process request.") :=
  unknown_method_reply ⟨true, false⟩ (fun _ => .ok "") "nosuch" (by decide)

/-! ## Path activation engine (`p2p_requests.py`, `__activate_scenario`, 301–1280)

The engine's external collaborators are modelled as an environment `Env`:
`central.query_address_info` and `database.get_database_info` supply the
target's owning controller and this controller's id; the topology model
(`engine/sector.py`, not part of src/) supplies adjacency, boundary edges
and path construction, per spec §4.2; the peer proxy supplies the outcome
of the recursive `activate_scenario` RPC (any exception while building the
proxy, resolving the hash or talking to the peer is collapsed by the source
into a `{"success": False}` result inside its `try`).  Reply texts are
modelled without the interpolated ids. -/

/-- The tuple `global_path_search_id = (source controller, source ip, target ip,
scenario type)`.  Addresses and UUIDs are modelled as naturals. -/
structure GPSId where
  src : Nat
  srcIp : Nat
  dstIp : Nat
  stype : String
deriving DecidableEq, Repr

/-- A well-formed `activate_scenario` request (spec §4.7). -/
structure Request where
  gpsid : GPSId
  sectorRequesting : Nat
  mplsLabel : Nat
  hashVal : Nat
deriving DecidableEq, Repr

/-- A boundary link returned by `query_edges_to_sector`:
`(switch, port, hash_val)`. -/
structure Link where
  sw : Nat
  port : Nat
  hashVal : Nat
deriving DecidableEq, Repr

/-- The pieces of a constructed `Path` that `__activate_scenario` reads:
its Python `len`, `remaining_bandwidth_average`, whether the two bookend
entities are Sectors (installer choice), and `path[-2]` projected to
`(switch_id, port_out)` (`none` embeds the `IndexError` on too-short
paths). -/
structure PathInfo where
  length : Nat
  remaining_bandwidth_average : ℚ
  entityASector : Bool
  entityBSector : Bool
  penult : Option (Nat × Nat)
deriving DecidableEq, Repr

/-- Outcome of the peer `activate_scenario` RPC: a success reply carries
`q_value` and `path_length`; a failure reply may or may not carry a
`q_value` (`forward_q_value` defaults to 0 when absent, and every exception
is collapsed into a failure without one). -/
inductive PeerResult where
  | ok (qValue : ℚ) (pathLength : Nat)
  | fail (qValue : Option ℚ)
deriving DecidableEq, Repr

/-- Embedding of `0 if "q_value" not in service_activation_result else …`. -/
def forwardQ : PeerResult → ℚ
  | .ok q _ => q
  | .fail oq => oq.getD 0

/-- The controller-global mutable state that `__activate_scenario` and
`__terminate_scenario` read and write. -/
structure EngineState where
  qv : QTable
  kspl : KTable
  mpls : AllocState
  scenarios : List (GPSId × (List Nat × List Nat))
  tokens : List (GPSId × String × String)
  mapped : List (Nat × Nat)
  nextHandle : Nat
deriving DecidableEq, Repr

/-- The engine's environment (see the section comment). -/
structure Env where
  thisController : Nat
  targetController : Nat
  targetName : Nat
  adjacentSectors : List Nat
  edgesToSector : Nat → List Link
  biPath : Nat → Nat → ℚ → Nat → Option Nat → Option PathInfo
  uniPath : Nat → Nat → Nat → Option PathInfo
  hashOf : Nat → Nat → Option Nat
  peerActivate : Nat → Nat → Nat → PeerResult

/-- Reply of `__activate_scenario`. -/
inductive Reply where
  | ok (g : GPSId) (qValue : ℚ) (pathLength : Nat)
  | fail (reason : String)
deriving DecidableEq, Repr

/-- The exceptions distinguished by the branch-level `except` ladder. -/
inductive EngineExc where
  | taskExists
  | pathNotFound
  | generic (msg : String)
deriving DecidableEq, Repr

def msgLoop : String :=
  "Path search has reached the source controller. Cancelling..."
def msgAlready : String := "Scenario is already implemented."
def msgTaskExists : String := "Global task is already being executed"
def msgPathNotFound : String :=
  "Failed to implement path to sector. An available path was not found in the network."
def msgNoSectors : String := "No available sectors to explore."
def msgExhausted : String :=
  "Failed to activate Scenario. Alternative adjacent sectors options is exhausted."

/-- Modelled from the spec (§4.4): `globals.is_scenario_active` — called by
`p2p_requests.py` but its definition is not under src/ (only the
`active_scenarios` dictionary is); the spec defines it as membership of the
gpsid in the scenario registry. -/
def is_scenario_active (st : EngineState) (g : GPSId) : Bool :=
  (dictGet st.scenarios g).isSome

/-- Modelled from the spec (§4.4): `globals.set_active_scenario` — insert
the record for the gpsid (not under src/). -/
def set_active_scenario (st : EngineState) (g : GPSId)
    (rec : List Nat × List Nat) : EngineState :=
  { st with scenarios := dictSet st.scenarios g rec }

/-- Modelled from the spec (§4.8): the service installers
(`services.icmpv4_flow_activation`, `services.ipv4_generic_flow_activation`,
`services.sector_to_sector_mpls_flow_activation`; `engine/services.py` is
not under src/) program flow entries and return a service handle stored by
identity; the handle's entry appears in the mapped-services tables.
`kind` is 0 for ICMPv4, 1 for generic IPv4, 2 for sector-to-sector MPLS. -/
def installService (kind : Nat) (st : EngineState) : Nat × EngineState :=
  (st.nextHandle,
    { st with
        nextHandle := st.nextHandle + 1,
        mapped := st.mapped ++ [(kind, st.nextHandle)] })

/-- Embedding of `register_implementation_task` and the branch `try … except` ladder
(`p2p_requests.py` 379–381 with 827–850, 854–856 with 1245–1268): the task
token is checked and inserted; it is released on *every* exit path (CPython
drops `active_task_token` when the function returns or raises), and each
exception class maps to its failure reply. -/
def runBranch (g : GPSId) (l3 l4 : String) (st : EngineState)
    (body : EngineState → Except (EngineExc × EngineState) (Reply × EngineState)) :
    Reply × EngineState :=
  if (g, l3, l4) ∈ st.tokens then (.fail msgTaskExists, st)
  else
    match body { st with tokens := (g, l3, l4) :: st.tokens } with
    | .ok (r, st') =>
        (r, { st' with tokens := st'.tokens.erase (g, l3, l4) })
    | .error (.taskExists, st') =>
        (.fail msgTaskExists, { st' with tokens := st'.tokens.erase (g, l3, l4) })
    | .error (.pathNotFound, st') =>
        (.fail msgPathNotFound, { st' with tokens := st'.tokens.erase (g, l3, l4) })
    | .error (.generic m, st') =>
        (.fail ("Failed to implement path to host. Reason " ++ m),
          { st' with tokens := st'.tokens.erase (g, l3, l4) })

/-- One pass of `tuple(filter(lambda link: get_q_value(key(link), target) == 0,
candidates))`: `get_q_value` inserts missing cells, so the Q-table is
threaded through the scan. -/
def qFilterZero {α : Type} (keyOf : α → QKey) (t : AddrKey) :
    QTable → List α → List α × QTable
  | qv, [] => ([], qv)
  | qv, l :: ls =>
    let r := get_q_value qv (keyOf l) t
    let rest := qFilterZero keyOf t r.2 ls
    (if r.1 = 0 then l :: rest.1 else rest.1, rest.2)

/-- Python `max(candidates, key=…)`: left-to-right fold keeping the first
maximiser, threading the Q-table through the key calls. -/
def qArgmaxGo {α : Type} (keyOf : α → QKey) (t : AddrKey) :
    QTable → α → ℚ → List α → α × QTable
  | qv, best, _, [] => (best, qv)
  | qv, best, bestQ, l :: ls =>
    let r := get_q_value qv (keyOf l) t
    if r.1 > bestQ then qArgmaxGo keyOf t r.2 l r.1 ls
    else qArgmaxGo keyOf t r.2 best bestQ ls

/-- Candidate selection (`p2p_requests.py` 487–499, 654–666, 1085–1097):
the first candidate whose Q-cell reads 0 if any (`links_never_used`), else
the first Q-maximising candidate. -/
def selectByQ {α : Type} (keyOf : α → QKey) (t : AddrKey) (qv : QTable) :
    List α → Option α × QTable
  | [] => (none, qv)
  | l :: ls =>
    let f := qFilterZero keyOf t qv (l :: ls)
    match f.1 with
    | z :: _ => (some z, f.2)
    | [] =>
      let r := get_q_value f.2 (keyOf l) t
      let m := qArgmaxGo keyOf t r.2 l r.1 ls
      (some m.1, m.2)

/-- The Q-value penalty applied after a failed peer activation
(`p2p_requests.py` 608–610, 791–793, 1051–1053, 1210–1212): read the old
value, apply the update rule with reward −1 and the peer's forward Q-value,
and hand the result to `set_q_value` (whose write is dropped for an
already-present cell, see C1). -/
def qPenalize (qv : QTable) (k : QKey) (t : AddrKey) (fwd : ℚ) : QTable :=
  let r := get_q_value qv k t
  set_q_value r.2 k t (calculate_new_qvalue r.1 fwd (-1))

/-- The Q-value update applied after a successful peer activation
(`p2p_requests.py` 561–565 etc.): reward `rbw / kspl`. -/
def qReward (qv : QTable) (k : QKey) (t : AddrKey) (fwd reward : ℚ) : QTable :=
  let r := get_q_value qv k t
  set_q_value r.2 k t (calculate_new_qvalue r.1 fwd reward)

/-- Resolve the hash for the chosen boundary and perform the peer RPC; any
exception inside the source's `try` (`get_controller_proxy`, `get_hash_val`
`KeyError`, socket errors, peer error replies) is collapsed into
`{"success": False, "reason": str(ex)}` with no `q_value`. -/
def peerCall (env : Env) (sid label sw port : Nat) : PeerResult :=
  match env.hashOf sw port with
  | none => .fail none
  | some hv => env.peerActivate sid label hv

/-- ICMPv4, target in this sector (`p2p_requests.py` 383–468): build the
pinned bidirectional path to the target host with 100 bandwidth units,
allocate a local MPLS label only when the path has ≥ 3 hops, install the
ICMPv4 service, register the scenario with adjacents = {requester}, and
reply `q_value = 1`, `path_length = len(path) − 1`. -/
def icmpLocalCase (env : Env) (req : Request) (st : EngineState) :
    Except (EngineExc × EngineState) (Reply × EngineState) :=
  match env.biPath req.sectorRequesting env.targetName 100 req.hashVal none with
  | none => .error (.pathNotFound, st)
  | some p =>
    if p.length = 0 then .error (.generic "AssertionError", st)
    else
      match (if p.length ≥ 3 then
              (alloc mplsCeiling st.mpls).map (fun r => some r.1)
            else .ok none),
            (if p.length ≥ 3 then
              (alloc mplsCeiling st.mpls).map (fun r => r.2)
            else .ok st.mpls) with
      | .error m, _ => .error (.generic m, st)
      | _, .error m => .error (.generic m, st)
      | .ok _, .ok mpls' =>
        let st := { st with mpls := mpls' }
        let hs := installService 0 st
        let st := set_active_scenario hs.2 req.gpsid
          ([hs.1], [req.sectorRequesting])
        .ok (.ok req.gpsid 1 (p.length - 1), st)

/-- The selection/path loop of the ICMPv4 target-adjacent sub-branch
(`p2p_requests.py` 485–514): select a link by Q-value, try to build the
pinned bidirectional path to the target sector; on `PathNotFound` remove
the link and retry, re-raising once none remain.  When `possible_links` is
empty at entry the loop never runs and the subsequent
`assert len(bidirectional_path)` fails on the initial empty tuple. -/
def icmpAdjPick (env : Env) (req : Request) (t : AddrKey) :
    Nat → List Link → QTable → Except EngineExc (Link × PathInfo) × QTable
  | _, [], qv => (.error (.generic "AssertionError"), qv)
  | 0, _ :: _, qv => (.error (.generic "fuel"), qv)
  | fuel + 1, l :: ls, qv =>
    match selectByQ (fun k => QKey.edge k.sw k.port) t qv (l :: ls) with
    | (none, qv') => (.error (.generic "unreachable"), qv')
    | (some sel, qv') =>
      match env.biPath req.sectorRequesting env.targetController 100
          req.hashVal (some sel.hashVal) with
      | some p => (.ok (sel, p), qv')
      | none =>
        let links' := (l :: ls).erase sel
        if links' = [] then (.error .pathNotFound, qv')
        else icmpAdjPick env req t fuel links' qv'

/-- ICMPv4, target owned by an *adjacent* sector (`p2p_requests.py`
479–635): after the selection loop the peer RPC is performed exactly once;
on success KSPL and the chosen edge's Q-cell are refreshed, the
sector-to-sector MPLS service installed and the scenario registered; on
failure the Q-penalty is applied to the *target sector* key (not the link)
and the branch immediately replies `"No available sectors to explore."`. -/
def icmpAdjCase (env : Env) (req : Request) (st : EngineState) :
    Except (EngineExc × EngineState) (Reply × EngineState) :=
  let t := AddrKey.ip req.gpsid.dstIp
  let links := env.edgesToSector env.targetController
  match icmpAdjPick env req t links.length links st.qv with
  | (.error e, qv') => .error (e, { st with qv := qv' })
  | (.ok (sel, p), qv') =>
    let st := { st with qv := qv' }
    if p.length = 0 then .error (.generic "AssertionError", st)
    else
      match alloc mplsCeiling st.mpls with
      | .error m => .error (.generic m, st)
      | .ok (label, a) =>
        let st := { st with mpls := a }
        let r := peerCall env env.targetController label sel.sw sel.port
        match r with
        | .ok _ peerLen =>
          let kr := kspl_success_refresh st.kspl (QKey.edge sel.sw sel.port)
            t peerLen
          let reward := p.remaining_bandwidth_average / ((kr.1.getD 0 : Nat) : ℚ)
          let st := { st with
            kspl := kr.2
            qv := qReward st.qv (QKey.edge sel.sw sel.port) t
              (forwardQ r) reward }
          let hs := installService 2 st
          let st := set_active_scenario hs.2 req.gpsid
            ([hs.1], [req.sectorRequesting, env.targetController])
          .ok (.ok req.gpsid
            (calculate_new_qvalue
              (get_q_value qv' (QKey.edge sel.sw sel.port) t).1 (forwardQ r) reward)
            (p.length + peerLen - 1), st)
        | .fail _ =>
          let st := { st with
            qv := qPenalize st.qv (QKey.sector env.targetController) t (forwardQ r) }
          .ok (.fail msgNoSectors, st)

/-- The exploration loop of the ICMPv4 general forwarding branch
(`p2p_requests.py` 652–825): select a link (across all remaining adjacent
sectors) by Q-value, *remove it immediately*, build the pinned path
(`PathNotFound` with no links left re-raises, otherwise continue), allocate
a label, perform the peer RPC; on success update KSPL and the edge's
Q-cell, install the matching service and reply; on failure apply the −1
Q-penalty to the chosen edge and continue with the remaining links; when
the list runs empty reply `"…options is exhausted."`. -/
def icmpGenLoop (env : Env) (req : Request) (t : AddrKey) :
    Nat → List (Link × Nat) → EngineState →
      Except (EngineExc × EngineState) (Reply × EngineState)
  | _, [], st => .ok (.fail msgExhausted, st)
  | 0, _ :: _, st => .error (.generic "fuel", st)
  | fuel + 1, l :: ls, st =>
    match selectByQ (fun k => QKey.edge k.1.sw k.1.port) t st.qv (l :: ls) with
    | (none, qv') => .error (.generic "unreachable", { st with qv := qv' })
    | (some sel, qv') =>
      let st := { st with qv := qv' }
      let links' := (l :: ls).erase sel
      match env.biPath req.sectorRequesting sel.2 100 req.hashVal
          (some sel.1.hashVal) with
      | none =>
        if links' = [] then .error (.pathNotFound, st)
        else icmpGenLoop env req t fuel links' st
      | some p =>
        if p.length = 0 then .error (.generic "AssertionError", st)
        else
          match alloc mplsCeiling st.mpls with
          | .error m => .error (.generic m, st)
          | .ok (label, a) =>
            let st := { st with mpls := a }
            let r := peerCall env sel.2 label sel.1.sw sel.1.port
            match r with
            | .ok _ peerLen =>
              let kr := kspl_success_refresh st.kspl
                (QKey.edge sel.1.sw sel.1.port) t peerLen
              let reward :=
                p.remaining_bandwidth_average / ((kr.1.getD 0 : Nat) : ℚ)
              let newQ := calculate_new_qvalue
                (get_q_value st.qv (QKey.edge sel.1.sw sel.1.port) t).1
                (forwardQ r) reward
              let st := { st with
                kspl := kr.2
                qv := qReward st.qv (QKey.edge sel.1.sw sel.1.port) t
                  (forwardQ r) reward }
              let hs := installService
                (if p.entityASector && p.entityBSector then 2 else 0) st
              let st := set_active_scenario hs.2 req.gpsid
                ([hs.1], [req.sectorRequesting, sel.2])
              .ok (.ok req.gpsid newQ (p.length + peerLen - 1), st)
            | .fail _ =>
              let st := { st with
                qv := qPenalize st.qv (QKey.edge sel.1.sw sel.1.port) t
                  (forwardQ r) }
              icmpGenLoop env req t fuel links' st

/-- The ICMPv4 branch of `__activate_scenario` (`p2p_requests.py` 377–850):
task token `("IPv4", "ICMP")`, then the local / target-adjacent / general
case split.  `adjacent_sectors_ids.remove(requester)` raises `KeyError`
when the requester is not adjacent (generic except clause). -/
def icmpBranch (env : Env) (req : Request) (st : EngineState) :
    Reply × EngineState :=
  runBranch req.gpsid "IPv4" "ICMP" st (fun st =>
    if env.targetController = env.thisController then
      icmpLocalCase env req st
    else
      if req.sectorRequesting ∉ env.adjacentSectors then
        .error (.generic "KeyError", st)
      else
        let adj := env.adjacentSectors.erase req.sectorRequesting
        if adj = [] then .ok (.fail msgNoSectors, st)
        else if env.targetController ∈ adj then
          icmpAdjCase env req st
        else
          let links := adj.flatMap
            (fun s => (env.edgesToSector s).map (fun e => (e, s)))
          icmpGenLoop env req (AddrKey.ip req.gpsid.dstIp)
            links.length links st)

/-- Generic IPv4, target in this sector (`p2p_requests.py` 858–942):
unidirectional best-effort path, MPLS label only for ≥ 3 hops, generic
IPv4 installer, scenario with adjacents = {requester}, reply `q_value = 1`,
`path_length = len(path) − 1`. -/
def ipv4LocalCase (env : Env) (req : Request) (st : EngineState) :
    Except (EngineExc × EngineState) (Reply × EngineState) :=
  match env.uniPath req.sectorRequesting env.targetName req.hashVal with
  | none => .error (.pathNotFound, st)
  | some p =>
    if p.length = 0 then .error (.generic "AssertionError", st)
    else
      match (if p.length ≥ 3 then
              (alloc mplsCeiling st.mpls).map (fun r => r.2)
            else .ok st.mpls) with
      | .error m => .error (.generic m, st)
      | .ok mpls' =>
        let st := { st with mpls := mpls' }
        let hs := installService 1 st
        let st := set_active_scenario hs.2 req.gpsid
          ([hs.1], [req.sectorRequesting])
        .ok (.ok req.gpsid 1 (p.length - 1), st)

/-- Generic IPv4, target owned by an *adjacent* sector (`p2p_requests.py`
953–1078): no selection loop at all — one unidirectional path (not pinned
to any next-sector hash), one label, one peer RPC addressed through the
hash of the path's second-to-last hop.  On success KSPL is refreshed under
the *sector* key with the `IPv4Address` target key while the Q-cell is
updated under the sector key with the *string* target key; the
sector-to-sector MPLS installer is always used.  On failure the −1
Q-penalty goes to the sector/string cell and the branch replies
`"No available sectors to explore."`. -/
def ipv4AdjCase (env : Env) (req : Request) (st : EngineState) :
    Except (EngineExc × EngineState) (Reply × EngineState) :=
  match env.uniPath req.sectorRequesting env.targetController req.hashVal with
  | none => .error (.pathNotFound, st)
  | some p =>
    if p.length = 0 then .error (.generic "AssertionError", st)
    else
      match alloc mplsCeiling st.mpls with
      | .error m => .error (.generic m, st)
      | .ok (label, a) =>
        let st := { st with mpls := a }
        match p.penult with
        | none => .error (.generic "IndexError", st)
        | some (sw, pout) =>
          let r := peerCall env env.targetController label sw pout
          match r with
          | .ok _ peerLen =>
            let kr := kspl_success_refresh st.kspl
              (QKey.sector env.targetController) (AddrKey.ip req.gpsid.dstIp)
              peerLen
            let reward :=
              p.remaining_bandwidth_average / ((kr.1.getD 0 : Nat) : ℚ)
            let newQ := calculate_new_qvalue
              (get_q_value st.qv (QKey.sector env.targetController)
                (AddrKey.str req.gpsid.dstIp)).1 (forwardQ r) reward
            let st := { st with
              kspl := kr.2
              qv := qReward st.qv (QKey.sector env.targetController)
                (AddrKey.str req.gpsid.dstIp) (forwardQ r) reward }
            let hs := installService 2 st
            let st := set_active_scenario hs.2 req.gpsid
              ([hs.1], [req.sectorRequesting, env.targetController])
            .ok (.ok req.gpsid newQ (p.length + peerLen - 1), st)
          | .fail _ =>
            let st := { st with
              qv := qPenalize st.qv (QKey.sector env.targetController)
                (AddrKey.str req.gpsid.dstIp) (forwardQ r) }
            .ok (.fail msgNoSectors, st)

/-- The exploration loop of the generic-IPv4 forwarding branch
(`p2p_requests.py` 1081–1243): candidates are the remaining adjacent
*sectors* (selection keys `sector_id`/`target_ipv4`, update keys
`sector_id`/`target_ipv4_str`); the chosen sector is removed immediately;
the unidirectional path construction is *not* guarded by a local
`try`/`except PathNotFound`, so a missing path aborts the whole branch;
on peer failure the −1 penalty is applied and the loop continues; when the
sector list runs empty the branch replies `"…options is exhausted."`. -/
def ipv4GenLoop (env : Env) (req : Request) :
    Nat → List Nat → EngineState →
      Except (EngineExc × EngineState) (Reply × EngineState)
  | _, [], st => .ok (.fail msgExhausted, st)
  | 0, _ :: _, st => .error (.generic "fuel", st)
  | fuel + 1, c :: cs, st =>
    match selectByQ QKey.sector (AddrKey.ip req.gpsid.dstIp) st.qv (c :: cs) with
    | (none, qv') => .error (.generic "unreachable", { st with qv := qv' })
    | (some sid, qv') =>
      let st := { st with qv := qv' }
      let sectors' := (c :: cs).erase sid
      match env.uniPath req.sectorRequesting sid req.hashVal with
      | none => .error (.pathNotFound, st)
      | some p =>
        if p.length = 0 then .error (.generic "AssertionError", st)
        else
          match alloc mplsCeiling st.mpls with
          | .error m => .error (.generic m, st)
          | .ok (label, a) =>
            let st := { st with mpls := a }
            match p.penult with
            | none => .error (.generic "IndexError", st)
            | some (sw, pout) =>
              let r := peerCall env sid label sw pout
              match r with
              | .ok _ peerLen =>
                let kr := kspl_success_refresh st.kspl (QKey.sector sid)
                  (AddrKey.ip req.gpsid.dstIp) peerLen
                let reward :=
                  p.remaining_bandwidth_average / ((kr.1.getD 0 : Nat) : ℚ)
                let newQ := calculate_new_qvalue
                  (get_q_value st.qv (QKey.sector sid)
                    (AddrKey.str req.gpsid.dstIp)).1 (forwardQ r) reward
                let st := { st with
                  kspl := kr.2
                  qv := qReward st.qv (QKey.sector sid)
                    (AddrKey.str req.gpsid.dstIp) (forwardQ r) reward }
                let hs := installService
                  (if p.entityASector && p.entityBSector then 2 else 1) st
                let st := set_active_scenario hs.2 req.gpsid
                  ([hs.1], [req.sectorRequesting, sid])
                .ok (.ok req.gpsid newQ (p.length + peerLen - 1), st)
              | .fail _ =>
                let st := { st with
                  qv := qPenalize st.qv (QKey.sector sid)
                    (AddrKey.str req.gpsid.dstIp) (forwardQ r) }
                ipv4GenLoop env req fuel sectors' st

/-- The generic-IPv4 branch of `__activate_scenario` (`p2p_requests.py`
852–1268): task token `("IPv4", "*")`, then the local / target-adjacent /
general case split. -/
def ipv4Branch (env : Env) (req : Request) (st : EngineState) :
    Reply × EngineState :=
  runBranch req.gpsid "IPv4" "*" st (fun st =>
    if env.targetController = env.thisController then
      ipv4LocalCase env req st
    else
      if req.sectorRequesting ∉ env.adjacentSectors then
        .error (.generic "KeyError", st)
      else
        let adj := env.adjacentSectors.erase req.sectorRequesting
        if adj = [] then .ok (.fail msgNoSectors, st)
        else if env.targetController ∈ adj then
          ipv4AdjCase env req st
        else
          ipv4GenLoop env req adj.length adj st)

/-- Embedding of `__activate_scenario` (`p2p_requests.py` 301–1280) for a well-formed
request: the loop-detection check, the already-implemented check, then the
scenario-type dispatch; any other scenario type — including `"MPLS"` —
falls to the final `else` with an `Invalid Scenario Type` failure, touching
no state. -/
def activateScenario (env : Env) (req : Request) (st : EngineState) :
    Reply × EngineState :=
  if req.gpsid.src = env.thisController then (.fail msgLoop, st)
  else if is_scenario_active st req.gpsid then (.fail msgAlready, st)
  else if req.gpsid.stype = "ICMPv4" then icmpBranch env req st
  else if req.gpsid.stype = "IPv4" then ipv4Branch env req st
  else
    (.fail ("Failed to activate Scenario. Invalid Scenario Type: "
      ++ req.gpsid.stype), st)

/-! ## Scenario termination (`p2p_requests.py`, `__terminate_scenario`,
1283–1359) -/

/-- A well-formed `terminate_scenario` request. -/
structure TermRequest where
  gpsid : GPSId
  requestingSector : Nat
deriving DecidableEq, Repr

/-- Reply of `__terminate_scenario`. -/
inductive TermReply where
  | ok (g : GPSId)
  | fail (reason : String)
deriving DecidableEq, Repr

/-- The peer `terminate_scenario` RPC for one adjacent sector, covering
`get_controller_proxy` and the proxy call: `.error` models a raised
exception (socket failure, status-1 reply), `.ok b` a returned reply whose
`success` flag is `b` — the source stores it in `res` and only logs it. -/
structure TermEnv where
  peerTerminate : Nat → Except String Bool

/-- Embedding of `set(adjacent_sectors_ids) - {requesting_sector_id}`: Python set
iteration order is unspecified; the embedding fixes first-occurrence
order. -/
def termTargets (adjacents : List Nat) (requester : Nat) : List Nat :=
  (adjacents.filter (fun s => s ≠ requester)).dedup

/-- The notification loop (`p2p_requests.py` 1327–1346): contact each
target in turn; a raising RPC aborts the loop (the branch's
`except Exception` re-raises), a returned reply is only logged. -/
def termNotify (env : TermEnv) : List Nat → Except String Unit
  | [] => .ok ()
  | s :: rest =>
    match env.peerTerminate s with
    | .error e => .error e
    | .ok _ => termNotify env rest

/-- Embedding of `__terminate_scenario` for a well-formed request: failure reply when the
gpsid is not registered; otherwise pop the record
(`globals.get_active_scenario(gpsid, True)` — not under src/, modelled from
spec §4.4 as read-and-remove), delete every mapped-services entry whose
handle is listed in the record, then notify the record's adjacent sectors
except the requester.  A raising peer RPC makes `__terminate_scenario`
itself raise (embedded as `.error`); the pop and the deletions stay in
place either way — nothing is rolled back. -/
def terminateScenario (env : TermEnv) (req : TermRequest) (st : EngineState) :
    Except String TermReply × EngineState :=
  match dictGet st.scenarios req.gpsid with
  | none => (.ok (.fail "Path registration does not exist."), st)
  | some rec =>
    let st := { st with
      scenarios := st.scenarios.filter (fun e => e.1 ≠ req.gpsid)
      mapped := st.mapped.filter (fun e => e.2 ∉ rec.1) }
    match termNotify env (termTargets rec.2 req.requestingSector) with
    | .error _ => (.error "Failed to terminate scenario.", st)
    | .ok _ => (.ok (.ok req.gpsid), st)

/-- C3 counterexample: a registered scenario whose single adjacent sector's
`terminate_scenario` RPC raises.  The record is popped and the matching
mapped-services entry removed, but `__terminate_scenario` raises instead of
returning success, refuting the claim that a failing peer RPC is *only*
logged. -/
theorem terminate_raises_on_peer_exception :
    excIsError
      (terminateScenario ⟨fun _ => .error "socket error"⟩
        ⟨⟨1, 10, 20, "ICMPv4"⟩, 9⟩
        { qv := [], kspl := [], mpls := ⟨16, []⟩,
          scenarios := [(⟨1, 10, 20, "ICMPv4"⟩, ([7], [5]))],
          tokens := [], mapped := [(0, 7)], nextHandle := 8 }).1 = true ∧
    (terminateScenario ⟨fun _ => .error "socket error"⟩
        ⟨⟨1, 10, 20, "ICMPv4"⟩, 9⟩
        { qv := [], kspl := [], mpls := ⟨16, []⟩,
          scenarios := [(⟨1, 10, 20, "ICMPv4"⟩, ([7], [5]))],
          tokens := [], mapped := [(0, 7)], nextHandle := 8 }).2.scenarios = [] ∧
    (terminateScenario ⟨fun _ => .error "socket error"⟩
        ⟨⟨1, 10, 20, "ICMPv4"⟩, 9⟩
        { qv := [], kspl := [], mpls := ⟨16, []⟩,
          scenarios := [(⟨1, 10, 20, "ICMPv4"⟩, ([7], [5]))],
          tokens := [], mapped := [(0, 7)], nextHandle := 8 }).2.mapped = [] := by
  exact ⟨by rfl, by rfl, by rfl⟩

theorem termNotify_ok {env : TermEnv} :
    ∀ {l : List Nat}, (∀ s ∈ l, excIsError (env.peerTerminate s) = false) →
      termNotify env l = .ok () := by
  intro l
  induction l with
  | nil => intro _; rfl
  | cons s rest ih =>
    intro h
    have hs := h s (List.mem_cons_self _ _)
    unfold termNotify
    cases hp : env.peerTerminate s with
    | error e => rw [hp] at hs; simp [excIsError] at hs
    | ok b => exact ih (fun x hx => h x (List.mem_cons_of_mem _ hx))

/-- C3 (amended): for every registered scenario record,
`terminate_scenario` pops the record and removes the mapped-services
entries whose handle the record lists, and this state change stands
whatever the peer RPCs do — nothing is rolled back.  When every peer RPC
*returns* (instead of raising), the call completes with success, peer
failure replies (`success: false`) included: they are only logged.  A
*raising* peer RPC, however, makes `__terminate_scenario` raise instead of
returning success (see the counterexample). -/
theorem terminate_scenario_removes_and_tolerates_replies
    (env : TermEnv) (req : TermRequest) (st : EngineState)
    (handles : List Nat) (adjacents : List Nat)
    (hrec : dictGet st.scenarios req.gpsid = some (handles, adjacents)) :
    ((terminateScenario env req st).2.scenarios =
        st.scenarios.filter (fun e => e.1 ≠ req.gpsid) ∧
      (terminateScenario env req st).2.mapped =
        st.mapped.filter (fun e => e.2 ∉ handles)) ∧
    ((∀ s ∈ termTargets adjacents req.requestingSector,
        excIsError (env.peerTerminate s) = false) →
      (terminateScenario env req st).1 = .ok (.ok req.gpsid)) := by
  have expand : terminateScenario env req st =
      match termNotify env (termTargets adjacents req.requestingSector) with
      | .error _ => (.error "Failed to terminate scenario.",
          { st with
            scenarios := st.scenarios.filter (fun e => e.1 ≠ req.gpsid)
            mapped := st.mapped.filter (fun e => e.2 ∉ handles) })
      | .ok _ => (.ok (.ok req.gpsid),
          { st with
            scenarios := st.scenarios.filter (fun e => e.1 ≠ req.gpsid)
            mapped := st.mapped.filter (fun e => e.2 ∉ handles) }) := by
    unfold terminateScenario
    rw [hrec]
  rw [expand]
  constructor
  · cases termNotify env (termTargets adjacents req.requestingSector) <;>
      exact ⟨rfl, rfl⟩
  · intro hok
    rw [termNotify_ok hok]

theorem terminate_scenario_removes_witness :
    (terminateScenario ⟨fun _ => .ok false⟩ ⟨⟨1, 10, 20, "ICMPv4"⟩, 9⟩
        { qv := [], kspl := [], mpls := ⟨16, []⟩,
          scenarios := [(⟨1, 10, 20, "ICMPv4"⟩, ([7], [5]))],
          tokens := [], mapped := [(0, 7), (1, 8)], nextHandle := 9 }).1 =
      .ok (.ok ⟨1, 10, 20, "ICMPv4"⟩) ∧
    (terminateScenario ⟨fun _ => .ok false⟩ ⟨⟨1, 10, 20, "ICMPv4"⟩, 9⟩
        { qv := [], kspl := [], mpls := ⟨16, []⟩,
          scenarios := [(⟨1, 10, 20, "ICMPv4"⟩, ([7], [5]))],
          tokens := [], mapped := [(0, 7), (1, 8)], nextHandle := 9 }).2.mapped =
      [(1, 8)] := by
  have h := terminate_scenario_removes_and_tolerates_replies
    ⟨fun _ => .ok false⟩ ⟨⟨1, 10, 20, "ICMPv4"⟩, 9⟩
    { qv := [], kspl := [], mpls := ⟨16, []⟩,
      scenarios := [(⟨1, 10, 20, "ICMPv4"⟩, ([7], [5]))],
      tokens := [], mapped := [(0, 7), (1, 8)], nextHandle := 9 }
    [7] [5] (by rfl)
  exact ⟨h.2 (fun s _ => by rfl), by rw [h.1.2]; rfl⟩

/-! ## Theorems about `__activate_scenario` -/

/-- A trivial closed environment used by concrete evaluations. -/
def env0 : Env :=
  { thisController := 1, targetController := 2, targetName := 100,
    adjacentSectors := [], edgesToSector := fun _ => [],
    biPath := fun _ _ _ _ _ => none, uniPath := fun _ _ _ => none,
    hashOf := fun _ _ => none, peerActivate := fun _ _ _ => .fail none }

/-- The empty initial controller state. -/
def st0 : EngineState :=
  { qv := [], kspl := [], mpls := ⟨16, []⟩, scenarios := [], tokens := [],
    mapped := [], nextHandle := 0 }

/-- C9: when the request's `global_path_search_id` names this controller as
the source controller, `__activate_scenario` immediately replies
`{success: False}` with the loop-detection reason; the check precedes the
already-implemented check, the task-token acquisition, any label allocation
and every other state access, and the returned state is exactly the input
state. -/
theorem loop_detection_immediate (env : Env) (req : Request)
    (st : EngineState) (h : req.gpsid.src = env.thisController) :
    activateScenario env req st = (.fail msgLoop, st) := by
  simp [activateScenario, h]

theorem loop_detection_immediate_witness :
    activateScenario env0 ⟨⟨1, 10, 20, "ICMPv4"⟩, 0, 0, 0⟩ st0 =
      (.fail msgLoop, st0) :=
  loop_detection_immediate env0 ⟨⟨1, 10, 20, "ICMPv4"⟩, 0, 0, 0⟩ st0 rfl

/-- C10 counterexample: a request with scenario type `"MPLS"` whose
`global_path_search_id` names this controller as source is answered with
the loop-detection reason, not with an `Invalid Scenario Type` reason — the
claim's universal statement over all well-formed requests with an invalid
type fails on this input (the earlier precondition checks reply first). -/
theorem invalid_type_preempted_by_loop_check :
    (activateScenario env0 ⟨⟨1, 10, 20, "MPLS"⟩, 0, 0, 0⟩ st0).1 =
      .fail msgLoop ∧
    msgLoop ≠
      "Failed to activate Scenario. Invalid Scenario Type: MPLS" := by
  exact ⟨by rfl, by decide⟩

/-- C10 (amended): for every well-formed request whose scenario type is
neither `"ICMPv4"` nor `"IPv4"` — including `"MPLS"` — *and* which passes
the loop-detection and already-implemented checks, `__activate_scenario`
replies `{success: False}` with the `Invalid Scenario Type` reason and
returns the state unchanged: no token, no allocator, no table and no
registry access happens on this path. -/
theorem invalid_scenario_type_rejected (env : Env) (req : Request)
    (st : EngineState) (h1 : req.gpsid.src ≠ env.thisController)
    (h2 : is_scenario_active st req.gpsid = false)
    (h3 : req.gpsid.stype ≠ "ICMPv4") (h4 : req.gpsid.stype ≠ "IPv4") :
    activateScenario env req st =
      (.fail ("Failed to activate Scenario. Invalid Scenario Type: "
        ++ req.gpsid.stype), st) := by
  simp [activateScenario, h1, h2, h3, h4]

theorem invalid_scenario_type_rejected_witness :
    activateScenario env0 ⟨⟨2, 10, 20, "MPLS"⟩, 0, 0, 0⟩ st0 =
      (.fail ("Failed to activate Scenario. Invalid Scenario Type: "
        ++ "MPLS"), st0) :=
  invalid_scenario_type_rejected env0 ⟨⟨2, 10, 20, "MPLS"⟩, 0, 0, 0⟩ st0
    (by decide) (by rfl) (by decide) (by decide)

/-! ### C2: the exploration loop on peer failure -/

theorem qFilterZero_subset {α : Type} (keyOf : α → QKey) (t : AddrKey) :
    ∀ (ls : List α) (qv : QTable) (x : α),
      x ∈ (qFilterZero keyOf t qv ls).1 → x ∈ ls := by
  intro ls
  induction ls with
  | nil => intro qv x hx; simp [qFilterZero] at hx
  | cons l ls ih =>
    intro qv x hx
    simp only [qFilterZero] at hx
    by_cases hz : (get_q_value qv (keyOf l) t).1 = 0
    · rw [if_pos hz] at hx
      rcases List.mem_cons.mp hx with rfl | hx'
      · exact List.mem_cons_self _ _
      · exact List.mem_cons_of_mem _ (ih _ _ hx')
    · rw [if_neg hz] at hx
      exact List.mem_cons_of_mem _ (ih _ _ hx)

theorem qArgmaxGo_mem {α : Type} (keyOf : α → QKey) (t : AddrKey) :
    ∀ (ls : List α) (qv : QTable) (best : α) (bq : ℚ),
      (qArgmaxGo keyOf t qv best bq ls).1 = best ∨
        (qArgmaxGo keyOf t qv best bq ls).1 ∈ ls := by
  intro ls
  induction ls with
  | nil => intro qv best bq; exact Or.inl rfl
  | cons l ls ih =>
    intro qv best bq
    simp only [qArgmaxGo]
    by_cases hgt : (get_q_value qv (keyOf l) t).1 > bq
    · rw [if_pos hgt]
      rcases ih (get_q_value qv (keyOf l) t).2 l
          (get_q_value qv (keyOf l) t).1 with h | h
      · refine Or.inr ?_
        rw [h]
        exact List.mem_cons_self _ _
      · exact Or.inr (List.mem_cons_of_mem _ h)
    · rw [if_neg hgt]
      rcases ih (get_q_value qv (keyOf l) t).2 best bq with h | h
      · exact Or.inl h
      · exact Or.inr (List.mem_cons_of_mem _ h)

theorem selectByQ_cons {α : Type} (keyOf : α → QKey) (t : AddrKey)
    (qv : QTable) (l : α) (ls : List α) :
    ∃ sel qv', selectByQ keyOf t qv (l :: ls) = (some sel, qv') ∧
      sel ∈ l :: ls := by
  simp only [selectByQ]
  cases hf : (qFilterZero keyOf t qv (l :: ls)).1 with
  | cons z zs =>
    exact ⟨z, (qFilterZero keyOf t qv (l :: ls)).2, rfl,
      qFilterZero_subset keyOf t (l :: ls) qv z
        (by rw [hf]; exact List.mem_cons_self _ _)⟩
  | nil =>
    refine ⟨(qArgmaxGo keyOf t
        (get_q_value (qFilterZero keyOf t qv (l :: ls)).2 (keyOf l) t).2 l
        (get_q_value (qFilterZero keyOf t qv (l :: ls)).2 (keyOf l) t).1
        ls).1,
      (qArgmaxGo keyOf t
        (get_q_value (qFilterZero keyOf t qv (l :: ls)).2 (keyOf l) t).2 l
        (get_q_value (qFilterZero keyOf t qv (l :: ls)).2 (keyOf l) t).1
        ls).2, rfl, ?_⟩
    rcases qArgmaxGo_mem keyOf t ls
        (get_q_value (qFilterZero keyOf t qv (l :: ls)).2 (keyOf l) t).2 l
        (get_q_value (qFilterZero keyOf t qv (l :: ls)).2 (keyOf l) t).1
      with h | h
    · rw [h]
      exact List.mem_cons_self _ _
    · exact List.mem_cons_of_mem _ h

theorem alloc_ok_of_ne {ceiling : Nat} {s : AllocState}
    (h : s.counter ≠ ceiling) :
    ∃ n a, alloc ceiling s = .ok (n, a) ∧ a.counter ≤ s.counter + 1 := by
  unfold alloc
  rw [if_neg h]
  by_cases hp : s.pool = []
  · exact ⟨_, _, by rw [dif_pos hp], by simp⟩
  · exact ⟨_, _, by rw [dif_neg hp], by simp⟩

theorem peerCall_fail {env : Env}
    (h : ∀ a b c, ∃ q, env.peerActivate a b c = .fail q)
    (s l sw p : Nat) : ∃ q, peerCall env s l sw p = .fail q := by
  unfold peerCall
  cases env.hashOf sw p with
  | none => exact ⟨none, rfl⟩
  | some hv => exact h s l hv

/-- Helper for C2, general forwarding branch: when every peer activation
fails, the exploration loop works through *all* the links — penalising each
chosen edge and moving on — and terminates with the
`"…options is exhausted."` failure reply; it never gives up while links
remain.  (`fuel ≥ links.length` always holds at the call site, and the
counter bound keeps `alloc_mpls_label_id` from raising mid-loop.) -/
theorem icmpGenLoop_all_fail (env : Env) (req : Request) (t : AddrKey)
    (hfail : ∀ a b c, ∃ q, env.peerActivate a b c = PeerResult.fail q)
    (hpath : ∀ a b c d e, ∃ p, env.biPath a b c d e = some p ∧
      p.length ≠ 0) :
    ∀ (fuel : Nat) (links : List (Link × Nat)) (st : EngineState),
      links.length ≤ fuel →
      st.mpls.counter + links.length ≤ mplsCeiling →
      ∃ st', icmpGenLoop env req t fuel links st =
        .ok (.fail msgExhausted, st') := by
  intro fuel
  induction fuel with
  | zero =>
    intro links st hlen _
    have : links = [] := List.length_eq_zero.mp (Nat.le_zero.mp hlen)
    subst this
    exact ⟨st, rfl⟩
  | succ fuel ih =>
    intro links st hlen hcnt
    cases links with
    | nil => exact ⟨st, rfl⟩
    | cons l ls =>
      obtain ⟨sel, qv', hsel, hmem⟩ := selectByQ_cons
        (fun k => QKey.edge k.1.sw k.1.port) t st.qv l ls
      obtain ⟨p, hp, hplen⟩ := hpath req.sectorRequesting sel.2 100
        req.hashVal (some sel.1.hashVal)
      have hctr : st.mpls.counter ≠ mplsCeiling := by
        have h1 : 1 ≤ (l :: ls).length := by simp
        omega
      obtain ⟨label, a, halloc, hle⟩ := alloc_ok_of_ne hctr
      obtain ⟨fq, hpeer⟩ := peerCall_fail hfail sel.2 label sel.1.sw
        sel.1.port
      have herase : ((l :: ls).erase sel).length = (l :: ls).length - 1 :=
        List.length_erase_of_mem hmem
      simp only [icmpGenLoop]
      rw [hsel]
      simp only [hp, if_neg hplen, halloc, hpeer]
      exact ih ((l :: ls).erase sel) _ (by simp at hlen herase ⊢; omega)
        (by simp at hcnt herase ⊢; omega)

/-- Helper for C2, target-adjacent sub-branch: whenever a link is selected
and its path constructed, a single failing peer RPC already makes the
branch reply `"No available sectors to explore."` — remaining links are
not tried — and the −1 Q-penalty is recorded under the *target sector* key
rather than the chosen link's edge key. -/
theorem icmpAdjCase_fail_immediate (env : Env) (req : Request)
    (st : EngineState)
    (hfail : ∀ a b c, ∃ q, env.peerActivate a b c = PeerResult.fail q)
    (hpath : ∀ a b c d e, ∃ p, env.biPath a b c d e = some p ∧
      p.length ≠ 0)
    (hlinks : env.edgesToSector env.targetController ≠ [])
    (hctr : st.mpls.counter ≠ mplsCeiling) :
    ∃ st' qv2 fq, icmpAdjCase env req st = .ok (.fail msgNoSectors, st') ∧
      st'.qv = qPenalize qv2 (QKey.sector env.targetController)
        (AddrKey.ip req.gpsid.dstIp) fq := by
  cases hl : env.edgesToSector env.targetController with
  | nil => exact absurd hl hlinks
  | cons l ls =>
    obtain ⟨sel, qv', hsel, hmem⟩ := selectByQ_cons
      (fun k => QKey.edge k.sw k.port) (AddrKey.ip req.gpsid.dstIp) st.qv l ls
    obtain ⟨p, hp, hplen⟩ := hpath req.sectorRequesting env.targetController
      100 req.hashVal (some sel.hashVal)
    obtain ⟨label, a, halloc, hle⟩ := alloc_ok_of_ne hctr
    obtain ⟨fq, hpeer⟩ := peerCall_fail hfail env.targetController label
      sel.sw sel.port
    have hpick : icmpAdjPick env req (AddrKey.ip req.gpsid.dstIp)
        (l :: ls).length (l :: ls) st.qv = (.ok (sel, p), qv') := by
      cases ls with
      | nil =>
        simp only [List.length, icmpAdjPick]
        rw [hsel]
        simp [hp]
      | cons l2 ls2 =>
        simp only [List.length, icmpAdjPick]
        rw [hsel]
        simp [hp]
    refine ⟨{ st with
        mpls := a
        qv := qPenalize qv' (QKey.sector env.targetController)
          (AddrKey.ip req.gpsid.dstIp)
          (forwardQ (PeerResult.fail fq)) },
      qv', forwardQ (PeerResult.fail fq), ?_, rfl⟩
    simp only [icmpAdjCase, hl]
    rw [hpick]
    dsimp only []
    rw [if_neg hplen]
    rw [show ({ st with qv := qv' } : EngineState).mpls = st.mpls from rfl,
      halloc]
    dsimp only []
    rw [hpeer]

/-- C2 (amended): the two ICMPv4 forwarding cases behave differently on
peer failure.  On the *general* forwarding branch (conjuncts 1 and 2) the
chosen link was already removed at selection time; a failing peer RPC adds
the −1 Q-penalty for the chosen edge (through `set_q_value`, whose write is
dropped for an existing cell — see C1) and the loop continues with the
remaining links, replying the exhaustion failure only once `possible_links`
is empty: with every peer failing, the loop still works through all links
and ends in `"…options is exhausted."`.  On the *target-adjacent*
sub-branch (conjunct 3) the peer RPC is performed exactly once: a single
failure immediately yields the `"No available sectors to explore."` reply
— other links to the target sector are left untried — and the −1 penalty is
keyed by the target sector, not the chosen link. -/
theorem icmp_exploration_on_peer_failure :
    (∀ (env : Env) (req : Request) (t : AddrKey) (fuel : Nat)
      (st : EngineState),
      icmpGenLoop env req t fuel [] st = .ok (.fail msgExhausted, st)) ∧
    (∀ (env : Env) (req : Request) (t : AddrKey),
      (∀ a b c, ∃ q, env.peerActivate a b c = PeerResult.fail q) →
      (∀ a b c d e, ∃ p, env.biPath a b c d e = some p ∧ p.length ≠ 0) →
      ∀ (fuel : Nat) (links : List (Link × Nat)) (st : EngineState),
        links.length ≤ fuel →
        st.mpls.counter + links.length ≤ mplsCeiling →
        ∃ st', icmpGenLoop env req t fuel links st =
          .ok (.fail msgExhausted, st')) ∧
    (∀ (env : Env) (req : Request) (st : EngineState),
      (∀ a b c, ∃ q, env.peerActivate a b c = PeerResult.fail q) →
      (∀ a b c d e, ∃ p, env.biPath a b c d e = some p ∧ p.length ≠ 0) →
      env.edgesToSector env.targetController ≠ [] →
      st.mpls.counter ≠ mplsCeiling →
      ∃ st' qv2 fq, icmpAdjCase env req st = .ok (.fail msgNoSectors, st') ∧
        st'.qv = qPenalize qv2 (QKey.sector env.targetController)
          (AddrKey.ip req.gpsid.dstIp) fq) := by
  refine ⟨?_, ?_, ?_⟩
  · intro env req t fuel st
    cases fuel <;> rfl
  · intro env req t hfail hpath
    exact icmpGenLoop_all_fail env req t hfail hpath
  · intro env req st hfail hpath hlinks hctr
    exact icmpAdjCase_fail_immediate env req st hfail hpath hlinks hctr

def linkA : Link := ⟨1, 1, 11⟩
def linkB : Link := ⟨2, 2, 12⟩
def pathC2 : PathInfo := ⟨3, 50, true, true, some (1, 1)⟩

/-- Environment for the C2 counterexample: the target's owner (sector 2) is
adjacent and reachable over two boundary links; every path is
constructible; the peer fails when addressed through the first link's hash
(11) and succeeds through the second (12). -/
def envC2 : Env :=
  { thisController := 1, targetController := 2, targetName := 100,
    adjacentSectors := [0, 2],
    edgesToSector := fun s => if s = 2 then [linkA, linkB] else [],
    biPath := fun _ _ _ _ _ => some pathC2,
    uniPath := fun _ _ _ => none,
    hashOf := fun sw _ => if sw = 1 then some 11 else some 12,
    peerActivate := fun _ _ hv => if hv = 11 then .fail none else .ok 1 3 }

def reqC2 : Request := ⟨⟨0, 10, 20, "ICMPv4"⟩, 0, 7, 5⟩

/-- C2 counterexample: on the target-adjacent sub-branch, with two usable
links to the target sector, the engine selects the first link, the peer RPC
for it fails, and `__activate_scenario` immediately replies failure — even
though `possible_links` still holds the second link, whose peer RPC would
have succeeded.  This refutes the claim that on peer failure the engine
removes the link, continues with the remaining links and replies failure
only once `possible_links` is empty "in particular … on the
target-adjacent sub-branch". -/
theorem adjacent_branch_gives_up_after_one_peer_failure :
    (activateScenario envC2 reqC2 st0).1 = .fail msgNoSectors ∧
    envC2.edgesToSector envC2.targetController = [linkA, linkB] ∧
    envC2.peerActivate 2 17 12 = .ok 1 3 := by
  exact ⟨by rfl, by rfl, by rfl⟩

/-- Environment for the C2 witness: exploration with every peer failing. -/
def envF : Env :=
  { thisController := 1, targetController := 2, targetName := 100,
    adjacentSectors := [0, 3],
    edgesToSector := fun _ => [linkA],
    biPath := fun _ _ _ _ _ => some pathC2,
    uniPath := fun _ _ _ => none,
    hashOf := fun _ _ => some 11,
    peerActivate := fun _ _ _ => .fail none }

theorem icmp_exploration_on_peer_failure_witness :
    icmpGenLoop envF reqC2 (AddrKey.ip 20) 5 [] st0 =
      .ok (.fail msgExhausted, st0) ∧
    (∃ st', icmpGenLoop envF reqC2 (AddrKey.ip 20) 1 [(linkA, 3)] st0 =
      .ok (.fail msgExhausted, st')) ∧
    (∃ st' qv2 fq, icmpAdjCase envF reqC2 st0 =
      .ok (.fail msgNoSectors, st') ∧
      st'.qv = qPenalize qv2 (QKey.sector envF.targetController)
        (AddrKey.ip reqC2.gpsid.dstIp) fq) := by
  refine ⟨icmp_exploration_on_peer_failure.1 envF reqC2 (AddrKey.ip 20) 5 st0,
    ?_, ?_⟩
  · exact icmp_exploration_on_peer_failure.2.1 envF reqC2 (AddrKey.ip 20)
      (fun a b c => ⟨none, rfl⟩)
      (fun a b c d e => ⟨pathC2, rfl, by decide⟩)
      1 [(linkA, 3)] st0 (by decide) (by decide)
  · exact icmp_exploration_on_peer_failure.2.2 envF reqC2 st0
      (fun a b c => ⟨none, rfl⟩)
      (fun a b c d e => ⟨pathC2, rfl, by decide⟩)
      (by decide) (by decide)

end ArchSDN
